import Mathlib

/-!
Shallow embedding of the Möbius-strip geometry core.

Source files embedded:
* `src/unnamed/part_000` — surface evaluation (`calculateMobiusPoint`),
  analytic partials (`calculatePartialDerivatives`), vector algebra
  (`crossProduct`, `magnitude`, `distance`), the numeric estimators
  (`calculateSurfaceArea`, `calculateEdgeLength`) and the grid builder
  (`calculateMobiusStripData`).
* `src/unnamed/part_001` — the mesh builder (`generateMobiusGeometry`):
  vertex positions, per-vertex colors, triangle index buffer.

JavaScript `number` arithmetic is modelled over `ℝ`; loop accumulation of
real addends is modelled as finite sums, and array-push loops as lists
built over `List.range`.
-/

namespace Mobius

/-- The `Point3D` record: an ordered triple of coordinates. -/
@[ext]
structure Point3D where
  x : ℝ
  y : ℝ
  z : ℝ

instance : Inhabited Point3D := ⟨⟨0, 0, 0⟩⟩

/-- The `MobiusStripParams` record: radius, width, angular resolution. -/
structure MobiusStripParams where
  radius : ℝ
  width : ℝ
  resolution : ℕ

/-- Source expression `Math.max(10, Math.floor(resolution / 5))`: the derived number of
subdivisions across the width, as inlined throughout `part_000` and bound
to `vSegments` in `part_001`. -/
def vSeg (resolution : ℕ) : ℕ := max 10 (resolution / 5)

/-- Source function `calculateMobiusPoint(u, v, R)`, `part_000` lines 4–10. -/
noncomputable def calculateMobiusPoint (u v R : ℝ) : Point3D :=
  { x := (R + v * Real.cos (u / 2)) * Real.cos u
    y := (R + v * Real.cos (u / 2)) * Real.sin u
    z := v * Real.sin (u / 2) }

/-- Source function `calculatePartialDerivatives(u, v, R)`, `part_000` lines 13–29:
the pair (∂r/∂u, ∂r/∂v). -/
noncomputable def calculatePartialDerivatives (u v R : ℝ) : Point3D × Point3D :=
  ({ x := -(R + v * Real.cos (u / 2)) * Real.sin u - (v / 2) * Real.sin (u / 2) * Real.cos u
     y := (R + v * Real.cos (u / 2)) * Real.cos u - (v / 2) * Real.sin (u / 2) * Real.sin u
     z := (v / 2) * Real.cos (u / 2) },
   { x := Real.cos (u / 2) * Real.cos u
     y := Real.cos (u / 2) * Real.sin u
     z := Real.sin (u / 2) })

/-- Source function `crossProduct(a, b)`, `part_000` lines 32–38. -/
def crossProduct (a b : Point3D) : Point3D :=
  { x := a.y * b.z - a.z * b.y
    y := a.z * b.x - a.x * b.z
    z := a.x * b.y - a.y * b.x }

/-- Source function `magnitude(v)`, `part_000` lines 41–43. -/
noncomputable def magnitude (v : Point3D) : ℝ :=
  Real.sqrt (v.x * v.x + v.y * v.y + v.z * v.z)

/-- Source function `distance(a, b)`, `part_000` lines 46–51. -/
noncomputable def distance (a b : Point3D) : ℝ :=
  Real.sqrt ((b.x - a.x) * (b.x - a.x) + (b.y - a.y) * (b.y - a.y) +
    (b.z - a.z) * (b.z - a.z))

/-- Source function `calculateSurfaceArea(params)`, `part_000` lines 54–80: the nested
accumulation loop over `i < resolution`, `j < max(10, floor(resolution/5))`,
as a double sum of its addends. -/
noncomputable def calculateSurfaceArea (params : MobiusStripParams) : ℝ :=
  let uStep : ℝ := (2 * Real.pi) / params.resolution
  let vStep : ℝ := params.width / (vSeg params.resolution : ℕ)
  ∑ i ∈ Finset.range params.resolution, ∑ j ∈ Finset.range (vSeg params.resolution),
    magnitude (crossProduct
      (calculatePartialDerivatives ((i : ℝ) * uStep)
        (((j : ℝ) / (vSeg params.resolution : ℕ) - 0.5) * params.width) params.radius).1
      (calculatePartialDerivatives ((i : ℝ) * uStep)
        (((j : ℝ) / (vSeg params.resolution : ℕ) - 0.5) * params.width) params.radius).2) *
      uStep * vStep

/-- Source function `calculateEdgeLength(params)`, `part_000` lines 83–101: the running
`prevPoint` loop sums, for `i = 1 … resolution`, the distance from the point
at `u = (i-1)·uStep` to the point at `u = i·uStep`, all at `v = width/2`. -/
noncomputable def calculateEdgeLength (params : MobiusStripParams) : ℝ :=
  let uStep : ℝ := (2 * Real.pi) / params.resolution
  ∑ i ∈ Finset.range params.resolution,
    distance (calculateMobiusPoint ((i : ℝ) * uStep) (params.width / 2) params.radius)
      (calculateMobiusPoint (((i : ℝ) + 1) * uStep) (params.width / 2) params.radius)

/-- The `MobiusStripProperties` record. -/
structure MobiusStripProperties where
  surfaceArea : ℝ
  edgeLength : ℝ

/-- The `MobiusStripData` record: the point grid plus the properties. -/
structure MobiusStripData where
  points : List (List Point3D)
  properties : MobiusStripProperties

/-- The grid loop of `calculateMobiusStripData` (`part_000` lines 111–121):
`points[i][j] = calculateMobiusPoint(i·uStep, (j/vSeg − 0.5)·width, radius)`
for `i = 0 … resolution`, `j = 0 … vSeg`. -/
noncomputable def mobiusGridPoints (params : MobiusStripParams) : List (List Point3D) :=
  let uStep : ℝ := (2 * Real.pi) / params.resolution
  (List.range (params.resolution + 1)).map fun (i : ℕ) =>
    (List.range (vSeg params.resolution + 1)).map fun (j : ℕ) =>
      calculateMobiusPoint ((i : ℝ) * uStep)
        (((j : ℝ) / (vSeg params.resolution : ℕ) - 0.5) * params.width) params.radius

/-- Source function `calculateMobiusStripData(params)`, `part_000` lines 104–130. -/
noncomputable def calculateMobiusStripData (params : MobiusStripParams) : MobiusStripData :=
  { points := mobiusGridPoints params
    properties :=
      { surfaceArea := calculateSurfaceArea params
        edgeLength := calculateEdgeLength params } }

/-- The vertex-loop body of `generateMobiusGeometry` (`part_001` lines
20–32): the position pushed for grid indices `(i, j)`, with
`u = (i / uSegments) * Math.PI * 2` and `v = ((j / vSegments) - 0.5) * width`. -/
noncomputable def mobiusMeshVertex (params : MobiusStripParams) (i j : ℕ) : Point3D :=
  let u : ℝ := ((i : ℝ) / params.resolution) * Real.pi * 2
  let v : ℝ := ((j : ℝ) / (vSeg params.resolution : ℕ) - 0.5) * params.width
  { x := (params.radius + v * Real.cos (u / 2)) * Real.cos u
    y := (params.radius + v * Real.cos (u / 2)) * Real.sin u
    z := v * Real.sin (u / 2) }

/-- The color pushed by `generateMobiusGeometry` (`part_001` lines 34–36)
for a vertex in column `j`: `colorFactor = |v| / (width/2)` and
`(0.2 + 0.3·f, 0.8 − 0.2·f, 0.6 + 0.2·f)`. The color does not depend on the
row index `i`. -/
noncomputable def mobiusMeshColor (params : MobiusStripParams) (j : ℕ) : ℝ × ℝ × ℝ :=
  let v : ℝ := ((j : ℝ) / (vSeg params.resolution : ℕ) - 0.5) * params.width
  let colorFactor : ℝ := |v| / (params.width / 2)
  (0.2 + 0.3 * colorFactor, 0.8 - 0.2 * colorFactor, 0.6 + 0.2 * colorFactor)

/-- The vertex array of `generateMobiusGeometry` (`part_001` lines 20–38),
one `Point3D` per `vertices.push(x, y, z)`, in push order. -/
noncomputable def mobiusVertices (params : MobiusStripParams) : List Point3D :=
  (List.range (params.resolution + 1)).flatMap fun i =>
    (List.range (vSeg params.resolution + 1)).map fun j => mobiusMeshVertex params i j

/-- The color array of `generateMobiusGeometry` (`part_001` lines 20–38),
one triple per `colors.push(...)`, in push order. -/
noncomputable def mobiusColors (params : MobiusStripParams) : List (ℝ × ℝ × ℝ) :=
  (List.range (params.resolution + 1)).flatMap fun _ =>
    (List.range (vSeg params.resolution + 1)).map fun j => mobiusMeshColor params j

/-- The triangle-emission loop of `generateMobiusGeometry` (`part_001` lines
41–52): for each cell `(i, j)` with `i < uSegments`, `j < vSegments`, with
`a = i·(vSegments+1)+j`, `b = a+1`, `c = a+(vSegments+1)`, `d = c+1`, the two
triangles `(a, b, d)` and `(a, d, c)`, in emission order. -/
def mobiusTriangles (resolution : ℕ) : List (ℕ × ℕ × ℕ) :=
  (List.range resolution).flatMap fun i =>
    (List.range (vSeg resolution)).flatMap fun j =>
      let a := i * (vSeg resolution + 1) + j
      let b := a + 1
      let c := a + (vSeg resolution + 1)
      let d := c + 1
      [(a, b, d), (a, d, c)]

/-- The flat index buffer of `generateMobiusGeometry`: each cell pushes
`a, b, d, a, d, c`. -/
def mobiusIndices (resolution : ℕ) : List ℕ :=
  (mobiusTriangles resolution).flatMap fun t => [t.1, t.2.1, t.2.2]

/-- The buffers assembled by `generateMobiusGeometry` (`part_001` lines
54–57): position attribute, color attribute, index buffer. -/
structure MeshBuffers where
  vertices : List Point3D
  colors : List (ℝ × ℝ × ℝ)
  indices : List ℕ

/-- Source function `generateMobiusGeometry(params)`, `part_001` lines 4–63, restricted
to the buffer contents it sets on the returned geometry. -/
noncomputable def generateMobiusGeometry (params : MobiusStripParams) : MeshBuffers :=
  { vertices := mobiusVertices params
    colors := mobiusColors params
    indices := mobiusIndices params.resolution }

/-! Spec-side definitions, written from the spec's wording, to be compared
with the source embedding above. -/

/-- Spec §4.1, `partials`, first component: the closed-form analytic ∂r/∂u. -/
noncomputable def specPartialU (u v R : ℝ) : Point3D :=
  { x := -(R + v * Real.cos (u / 2)) * Real.sin u - (v / 2) * Real.sin (u / 2) * Real.cos u
    y := (R + v * Real.cos (u / 2)) * Real.cos u - (v / 2) * Real.sin (u / 2) * Real.sin u
    z := (v / 2) * Real.cos (u / 2) }

/-- Spec §4.1, `partials`, second component: the closed-form analytic ∂r/∂v. -/
noncomputable def specPartialV (u : ℝ) : Point3D :=
  { x := Real.cos (u / 2) * Real.cos u
    y := Real.cos (u / 2) * Real.sin u
    z := Real.sin (u / 2) }

/-- Spec §4.3: the Riemann sum
`A = Σ_i Σ_j |∂r/∂u × ∂r/∂v| at (u_i, v_j) · Δu · Δv` with
`Δu = 2π/resolution`, `Δv = width/vSegments`, `u_i = i·Δu` for
`i ∈ [0, resolution)`, `v_j = (j/vSegments − 0.5)·width` for
`j ∈ [0, vSegments)`, `vSegments = max(10, floor(resolution/5))`,
using the spec's analytic partial derivatives. -/
noncomputable def specSurfaceArea (params : MobiusStripParams) : ℝ :=
  ∑ i ∈ Finset.range params.resolution, ∑ j ∈ Finset.range (vSeg params.resolution),
    magnitude (crossProduct
      (specPartialU ((i : ℝ) * ((2 * Real.pi) / params.resolution))
        (((j : ℝ) / (vSeg params.resolution : ℕ) - 0.5) * params.width) params.radius)
      (specPartialV ((i : ℝ) * ((2 * Real.pi) / params.resolution)))) *
      ((2 * Real.pi) / params.resolution) *
      (params.width / (vSeg params.resolution : ℕ))

/-- Spec §4.4: the i-th sampled boundary point, at `u = i·(2π/resolution)`
and `v = width/2`. -/
noncomputable def specEdgePoint (params : MobiusStripParams) (i : ℕ) : Point3D :=
  calculateMobiusPoint ((i : ℝ) * ((2 * Real.pi) / params.resolution))
    (params.width / 2) params.radius

/-- The piecewise-linear length of a polyline: the sum of the Euclidean
distances between each consecutive pair of its points. -/
noncomputable def polylineLength : List Point3D → ℝ
  | a :: b :: rest => distance a b + polylineLength (b :: rest)
  | _ => 0

/-- Spec §4.6: the vertex color as a function of the across-width
coordinate v, `colorFactor = |v| / (width/2)`,
`color = (0.2 + 0.3·colorFactor, 0.8 − 0.2·colorFactor, 0.6 + 0.2·colorFactor)`. -/
noncomputable def specColor (width v : ℝ) : ℝ × ℝ × ℝ :=
  (0.2 + 0.3 * (|v| / (width / 2)),
   0.8 - 0.2 * (|v| / (width / 2)),
   0.6 + 0.2 * (|v| / (width / 2)))

/-- Concrete parameters used by the witnesses: radius 1, width 1,
resolution 20 (so `vSeg = max 10 4 = 10`). -/
def testParams : MobiusStripParams := ⟨1, 1, 20⟩

/-! Theorems settling the claims. -/

/-- C3: the function `position(u, v, R)` returns exactly
`((R + v·cos(u/2))·cos u, (R + v·cos(u/2))·sin u, v·sin(u/2))`, and
`position(0, v, R) = (R+v, 0, 0)` exactly. -/
theorem c3_position_formula (u v R : ℝ) :
    calculateMobiusPoint u v R =
      { x := (R + v * Real.cos (u / 2)) * Real.cos u
        y := (R + v * Real.cos (u / 2)) * Real.sin u
        z := v * Real.sin (u / 2) } ∧
    calculateMobiusPoint 0 v R = { x := R + v, y := 0, z := 0 } := by
  refine ⟨rfl, ?_⟩
  simp [calculateMobiusPoint]

/-- C7: the vertex position the mesh builder stores for grid indices
`(i, j)` equals `calculateMobiusPoint` at `u_i = i·(2π/resolution)` and
`v_j = (j/vSegments − 0.5)·width`: MeshBuilder and GridSampler evaluate
identical formulas. -/
theorem c7_mesh_vertex_eq_position (params : MobiusStripParams) (i j : ℕ)
    (hi : i ≤ params.resolution) (hj : j ≤ vSeg params.resolution) :
    mobiusMeshVertex params i j =
      calculateMobiusPoint ((i : ℝ) * ((2 * Real.pi) / params.resolution))
        (((j : ℝ) / (vSeg params.resolution : ℕ) - 0.5) * params.width)
        params.radius := by
  unfold mobiusMeshVertex calculateMobiusPoint
  have hu : ((i : ℝ) / params.resolution) * Real.pi * 2 =
      (i : ℝ) * ((2 * Real.pi) / params.resolution) := by ring
  rw [hu]

/-- Witness for C7 at concrete parameters and grid indices. -/
theorem c7_witness :
    (0 ≤ testParams.resolution ∧ 3 ≤ vSeg testParams.resolution) ∧
    mobiusMeshVertex testParams 0 3 =
      calculateMobiusPoint ((0 : ℕ) * ((2 * Real.pi) / testParams.resolution))
        (((3 : ℕ) / (vSeg testParams.resolution : ℕ) - 0.5) * testParams.width)
        testParams.radius :=
  ⟨⟨by decide, by decide⟩,
   c7_mesh_vertex_eq_position testParams 0 3 (by decide) (by decide)⟩

/-- Reading an in-range entry of a list built by mapping over `List.range`. -/
theorem getD_map_range {α : Type} (f : ℕ → α) (n i : ℕ) (h : i < n) (d : α) :
    ((List.range n).map f).getD i d = f i := by
  rw [List.getD_eq_getElem?_getD]
  simp [List.getElem?_range h]

/-- C4: the grid returned by `calculateMobiusStripData` has exactly
`resolution+1` rows of exactly `vSegments+1` points each, with
`vSegments = max(10, floor(resolution/5))`, and the entry at `(i, j)` is
`calculateMobiusPoint(i·(2π/resolution), (j/vSegments − 0.5)·width, radius)`. -/
theorem c4_grid_shape_and_entries (params : MobiusStripParams)
    (h : 10 ≤ params.resolution) :
    (calculateMobiusStripData params).points.length = params.resolution + 1 ∧
    (∀ row ∈ (calculateMobiusStripData params).points,
      row.length = vSeg params.resolution + 1) ∧
    ∀ i j, i ≤ params.resolution → j ≤ vSeg params.resolution →
      (((calculateMobiusStripData params).points.getD i []).getD j default =
        calculateMobiusPoint ((i : ℝ) * ((2 * Real.pi) / params.resolution))
          (((j : ℝ) / (vSeg params.resolution : ℕ) - 0.5) * params.width)
          params.radius) := by
  refine ⟨?_, ?_, ?_⟩
  · simp [calculateMobiusStripData, mobiusGridPoints]
  · intro row hrow
    simp only [calculateMobiusStripData, mobiusGridPoints, List.mem_map,
      List.mem_range] at hrow
    obtain ⟨i, _, rfl⟩ := hrow
    simp
  · intro i j hi hj
    show ((mobiusGridPoints params).getD i []).getD j default = _
    unfold mobiusGridPoints
    rw [getD_map_range _ _ _ (by omega), getD_map_range _ _ _ (by omega)]

/-- Witness for C4 at concrete parameters. -/
theorem c4_witness :
    10 ≤ testParams.resolution ∧
    ((calculateMobiusStripData testParams).points.length =
        testParams.resolution + 1 ∧
      (∀ row ∈ (calculateMobiusStripData testParams).points,
        row.length = vSeg testParams.resolution + 1) ∧
      ∀ i j, i ≤ testParams.resolution → j ≤ vSeg testParams.resolution →
        (((calculateMobiusStripData testParams).points.getD i []).getD j default =
          calculateMobiusPoint ((i : ℝ) * ((2 * Real.pi) / testParams.resolution))
            (((j : ℝ) / (vSeg testParams.resolution : ℕ) - 0.5) * testParams.width)
            testParams.radius)) :=
  ⟨by decide, c4_grid_shape_and_entries testParams (by decide)⟩

/-- C1: the function `calculateSurfaceArea` returns exactly the spec's left-corner
Riemann sum `Σ_i Σ_j |∂r/∂u × ∂r/∂v| at (u_i, v_j) · Δu · Δv` with the
spec's closed-form analytic partial derivatives. -/
theorem c1_surface_area_is_spec_sum (params : MobiusStripParams)
    (hr : 0 < params.radius) (hw : 0 < params.width)
    (hres : 10 ≤ params.resolution) :
    calculateSurfaceArea params = specSurfaceArea params := rfl

/-- Witness for C1 at concrete parameters. -/
theorem c1_witness :
    (0 < testParams.radius ∧ 0 < testParams.width ∧ 10 ≤ testParams.resolution) ∧
    calculateSurfaceArea testParams = specSurfaceArea testParams :=
  ⟨⟨by norm_num [testParams], by norm_num [testParams], by decide⟩,
   c1_surface_area_is_spec_sum testParams (by norm_num [testParams])
     (by norm_num [testParams]) (by decide)⟩

/-- Appending one more point to a polyline adds the distance from the old
last point to the new one. -/
theorem polylineLength_append_last :
    ∀ (l : List Point3D) (a b : Point3D),
      polylineLength (l ++ [a, b]) = polylineLength (l ++ [a]) + distance a b := by
  intro l
  induction l with
  | nil => intro a b; simp [polylineLength]
  | cons c l ih =>
      intro a b
      cases l with
      | nil => simp [polylineLength]
      | cons d l' =>
          have h1 : polylineLength ((c :: d :: l') ++ [a, b]) =
              distance c d + polylineLength ((d :: l') ++ [a, b]) := rfl
          have h2 : polylineLength ((c :: d :: l') ++ [a]) =
              distance c d + polylineLength ((d :: l') ++ [a]) := rfl
          rw [h1, h2, ih, add_assoc]

/-- The polyline length of `[f 0, …, f n]` is the sum of the distances
between consecutive samples. -/
theorem polylineLength_map_range (f : ℕ → Point3D) :
    ∀ n : ℕ, polylineLength ((List.range (n + 1)).map f) =
      ∑ i ∈ Finset.range n, distance (f i) (f (i + 1)) := by
  intro n
  induction n with
  | zero => simp [polylineLength]
  | succ n ih =>
      have hsplit : (List.range (n + 1 + 1)).map f =
          (List.range n).map f ++ [f n, f (n + 1)] := by
        rw [List.range_succ, List.range_succ (n := n)]
        simp
      have hprev : (List.range (n + 1)).map f = (List.range n).map f ++ [f n] := by
        rw [List.range_succ]
        simp
      rw [hsplit, polylineLength_append_last, ← hprev, ih, Finset.sum_range_succ]

/-- C2: the function `calculateEdgeLength` samples the `resolution + 1` boundary points
at `v = width/2` and returns exactly the sum of the Euclidean distances
between consecutive pairs — the polyline length of those points. -/
theorem c2_edge_length_is_polyline (params : MobiusStripParams)
    (h : 10 ≤ params.resolution) :
    ((List.range (params.resolution + 1)).map (specEdgePoint params)).length =
      params.resolution + 1 ∧
    calculateEdgeLength params =
      polylineLength ((List.range (params.resolution + 1)).map (specEdgePoint params)) := by
  refine ⟨by simp, ?_⟩
  rw [polylineLength_map_range]
  unfold calculateEdgeLength specEdgePoint
  refine Finset.sum_congr rfl ?_
  intro i _
  push_cast
  rfl

/-- Witness for C2 at concrete parameters. -/
theorem c2_witness :
    10 ≤ testParams.resolution ∧
    (((List.range (testParams.resolution + 1)).map (specEdgePoint testParams)).length =
        testParams.resolution + 1 ∧
      calculateEdgeLength testParams =
        polylineLength
          ((List.range (testParams.resolution + 1)).map (specEdgePoint testParams))) :=
  ⟨by decide, c2_edge_length_is_polyline testParams (by decide)⟩

/-- Length of a `flatMap` whose pieces all have the same length. -/
theorem length_flatMap_const {α β : Type} (l : List α) (f : α → List β) (c : ℕ)
    (h : ∀ a ∈ l, (f a).length = c) : (l.flatMap f).length = l.length * c := by
  induction l with
  | nil => simp
  | cons x xs ih =>
      rw [List.flatMap_cons, List.length_append, h x (by simp),
        ih fun a ha => h a (by simp [ha]), List.length_cons]
      ring

/-- Every emitted triangle comes from a cell `(i, j)` with `i < resolution`
and `j < vSegments`, and is one of the two triangles of that cell. -/
theorem mem_mobiusTriangles (res : ℕ) (t : ℕ × ℕ × ℕ)
    (ht : t ∈ mobiusTriangles res) :
    ∃ i j, i < res ∧ j < vSeg res ∧
      (t = (i * (vSeg res + 1) + j, i * (vSeg res + 1) + j + 1,
            i * (vSeg res + 1) + j + (vSeg res + 1) + 1) ∨
       t = (i * (vSeg res + 1) + j, i * (vSeg res + 1) + j + (vSeg res + 1) + 1,
            i * (vSeg res + 1) + j + (vSeg res + 1))) := by
  simp only [mobiusTriangles, List.mem_flatMap, List.mem_range, List.mem_cons,
    List.not_mem_nil, or_false] at ht
  obtain ⟨i, hi, j, hj, hcase⟩ := ht
  exact ⟨i, j, hi, hj, hcase⟩

/-- C5: the mesh has exactly `2·resolution·vSegments` triangles (an index
buffer of length `6·resolution·vSegments`), exactly
`(resolution+1)·(vSegments+1)` vertices, and every index is below the
vertex count. -/
theorem c5_mesh_counts_and_bounds (params : MobiusStripParams)
    (h : 10 ≤ params.resolution) :
    (mobiusTriangles params.resolution).length =
      2 * params.resolution * vSeg params.resolution ∧
    (mobiusIndices params.resolution).length =
      6 * params.resolution * vSeg params.resolution ∧
    (mobiusVertices params).length =
      (params.resolution + 1) * (vSeg params.resolution + 1) ∧
    ∀ idx ∈ mobiusIndices params.resolution,
      idx < (params.resolution + 1) * (vSeg params.resolution + 1) := by
  have htri : (mobiusTriangles params.resolution).length =
      2 * params.resolution * vSeg params.resolution := by
    unfold mobiusTriangles
    rw [length_flatMap_const _ _ (vSeg params.resolution * 2), List.length_range]
    · ring
    · intro i _
      rw [length_flatMap_const _ _ 2, List.length_range]
      intro j _
      rfl
  refine ⟨htri, ?_, ?_, ?_⟩
  · unfold mobiusIndices
    rw [length_flatMap_const _ _ 3, htri]
    · ring
    · intro t _
      rfl
  · unfold mobiusVertices
    rw [length_flatMap_const _ _ (vSeg params.resolution + 1), List.length_range]
    intro i _
    rw [List.length_map, List.length_range]
  · intro idx hidx
    unfold mobiusIndices at hidx
    rw [List.mem_flatMap] at hidx
    obtain ⟨t, ht, hmem⟩ := hidx
    obtain ⟨i, j, hi, hj, hcase⟩ := mem_mobiusTriangles _ t ht
    rcases hcase with rfl | rfl <;> simp at hmem <;> rcases hmem with rfl | rfl | rfl <;>
      nlinarith

/-- Witness for C5 at concrete parameters. -/
theorem c5_witness :
    10 ≤ testParams.resolution ∧
    ((mobiusTriangles testParams.resolution).length =
        2 * testParams.resolution * vSeg testParams.resolution ∧
      (mobiusIndices testParams.resolution).length =
        6 * testParams.resolution * vSeg testParams.resolution ∧
      (mobiusVertices testParams).length =
        (testParams.resolution + 1) * (vSeg testParams.resolution + 1) ∧
      ∀ idx ∈ mobiusIndices testParams.resolution,
        idx < (testParams.resolution + 1) * (vSeg testParams.resolution + 1)) :=
  ⟨by decide, c5_mesh_counts_and_bounds testParams (by decide)⟩

/-- C6: no emitted triangle references both a vertex of the last row
(index ≥ resolution·(vSegments+1)) and a vertex of row 0 (index ≤
vSegments): the triangulation leaves an open seam between row `resolution`
and row 0. -/
theorem c6_open_seam (params : MobiusStripParams) (h : 10 ≤ params.resolution) :
    ∀ t ∈ mobiusTriangles params.resolution,
      ¬((params.resolution * (vSeg params.resolution + 1) ≤ t.1 ∨
          params.resolution * (vSeg params.resolution + 1) ≤ t.2.1 ∨
          params.resolution * (vSeg params.resolution + 1) ≤ t.2.2) ∧
        (t.1 ≤ vSeg params.resolution ∨ t.2.1 ≤ vSeg params.resolution ∨
          t.2.2 ≤ vSeg params.resolution)) := by
  intro t ht hcontra
  obtain ⟨i, j, hi, hj, hcase⟩ := mem_mobiusTriangles _ t ht
  have h10 : 10 * (vSeg params.resolution + 1) ≤
      params.resolution * (vSeg params.resolution + 1) :=
    Nat.mul_le_mul_right _ h
  have hzero : i * (vSeg params.resolution + 1) + j ≤ vSeg params.resolution → i = 0 := by
    intro hle
    by_contra hne
    have : 1 * (vSeg params.resolution + 1) ≤ i * (vSeg params.resolution + 1) :=
      Nat.mul_le_mul_right _ (by omega)
    omega
  rcases hcase with rfl | rfl <;> obtain ⟨hlast, hfirst⟩ := hcontra <;>
    dsimp only at hlast hfirst
  · have hi0 : i = 0 := by
      rcases hfirst with h' | h' | h'
      · exact hzero (by omega)
      · exact hzero (by omega)
      · exfalso; omega
    subst hi0
    omega
  · have hi0 : i = 0 := by
      rcases hfirst with h' | h' | h'
      · exact hzero (by omega)
      · exfalso; omega
      · exfalso; omega
    subst hi0
    omega

/-- Witness for C6 at concrete parameters and a concrete emitted triangle. -/
theorem c6_witness :
    (10 ≤ testParams.resolution ∧ (0, 1, 12) ∈ mobiusTriangles testParams.resolution) ∧
    ¬((testParams.resolution * (vSeg testParams.resolution + 1) ≤ (0, 1, 12).1 ∨
        testParams.resolution * (vSeg testParams.resolution + 1) ≤ (0, 1, 12).2.1 ∨
        testParams.resolution * (vSeg testParams.resolution + 1) ≤ (0, 1, 12).2.2) ∧
      ((0, 1, 12).1 ≤ vSeg testParams.resolution ∨
        (0, 1, 12).2.1 ≤ vSeg testParams.resolution ∨
        (0, 1, 12).2.2 ≤ vSeg testParams.resolution)) :=
  ⟨⟨by decide, by decide⟩,
   c6_open_seam testParams (by decide) (0, 1, 12) (by decide)⟩

/-- C10: each emitted triangle has three pairwise-distinct vertex indices:
the two triangles of every cell are never degenerate. -/
theorem c10_triangles_nondegenerate (params : MobiusStripParams)
    (h : 10 ≤ params.resolution) :
    ∀ t ∈ mobiusTriangles params.resolution,
      t.1 ≠ t.2.1 ∧ t.1 ≠ t.2.2 ∧ t.2.1 ≠ t.2.2 := by
  intro t ht
  obtain ⟨i, j, hi, hj, hcase⟩ := mem_mobiusTriangles _ t ht
  rcases hcase with rfl | rfl <;> refine ⟨?_, ?_, ?_⟩ <;> dsimp only <;> omega

/-- Witness for C10 at concrete parameters and a concrete emitted triangle. -/
theorem c10_witness :
    (10 ≤ testParams.resolution ∧ (0, 1, 12) ∈ mobiusTriangles testParams.resolution) ∧
    ((0, 1, 12).1 ≠ (0, 1, 12).2.1 ∧ (0, 1, 12).1 ≠ (0, 1, 12).2.2 ∧
      (0, 1, 12).2.1 ≠ (0, 1, 12).2.2) :=
  ⟨⟨by decide, by decide⟩,
   c10_triangles_nondegenerate testParams (by decide) (0, 1, 12) (by decide)⟩

/-- C9: the stored vertex color is `(0.2 + 0.3·f, 0.8 − 0.2·f, 0.6 + 0.2·f)`
with `f = |v| / (width/2)` (independent of the angular index), every
component lies in `[0, 1]`, the color at `v = 0` is `(0.2, 0.8, 0.6)`, and
the color at `v = ±width/2` is `(0.5, 0.6, 0.8)`. -/
theorem c9_mesh_colors (params : MobiusStripParams) (j : ℕ)
    (hw : 0 < params.width) (hj : j ≤ vSeg params.resolution) :
    mobiusMeshColor params j =
      specColor params.width
        (((j : ℝ) / (vSeg params.resolution : ℕ) - 0.5) * params.width) ∧
    (0 ≤ (mobiusMeshColor params j).1 ∧ (mobiusMeshColor params j).1 ≤ 1) ∧
    (0 ≤ (mobiusMeshColor params j).2.1 ∧ (mobiusMeshColor params j).2.1 ≤ 1) ∧
    (0 ≤ (mobiusMeshColor params j).2.2 ∧ (mobiusMeshColor params j).2.2 ≤ 1) ∧
    specColor params.width 0 = (0.2, 0.8, 0.6) ∧
    specColor params.width (params.width / 2) = (0.5, 0.6, 0.8) ∧
    specColor params.width (-(params.width / 2)) = (0.5, 0.6, 0.8) := by
  have hvS : (0 : ℝ) < ((vSeg params.resolution : ℕ) : ℝ) := by
    have : 0 < vSeg params.resolution := by
      unfold vSeg
      omega
    exact_mod_cast this
  have ht0 : (0 : ℝ) ≤ (j : ℝ) / (vSeg params.resolution : ℕ) :=
    div_nonneg (Nat.cast_nonneg j) (le_of_lt hvS)
  have ht1 : (j : ℝ) / (vSeg params.resolution : ℕ) ≤ 1 := by
    rw [div_le_one hvS]
    exact_mod_cast hj
  set v : ℝ := ((j : ℝ) / (vSeg params.resolution : ℕ) - 0.5) * params.width with hv
  have habs : |v| ≤ params.width / 2 := by
    rw [hv, abs_mul, abs_of_pos hw]
    have h1 : |(j : ℝ) / (vSeg params.resolution : ℕ) - 0.5| ≤ 0.5 := by
      rw [abs_le]
      constructor <;> nlinarith
    nlinarith
  have hf0 : 0 ≤ |v| / (params.width / 2) :=
    div_nonneg (abs_nonneg v) (by linarith)
  have hf1 : |v| / (params.width / 2) ≤ 1 := by
    rw [div_le_one (by linarith)]
    exact habs
  have hcolor : mobiusMeshColor params j =
      (0.2 + 0.3 * (|v| / (params.width / 2)),
       0.8 - 0.2 * (|v| / (params.width / 2)),
       0.6 + 0.2 * (|v| / (params.width / 2))) := rfl
  have hw2 : (0 : ℝ) < params.width / 2 := by linarith
  refine ⟨rfl, ?_, ?_, ?_, ?_, ?_, ?_⟩
  · rw [hcolor]
    dsimp only
    constructor <;> linarith
  · rw [hcolor]
    dsimp only
    constructor <;> linarith
  · rw [hcolor]
    dsimp only
    constructor <;> linarith
  · unfold specColor
    rw [abs_zero, zero_div]
    simp only [Prod.mk.injEq]
    norm_num
  · unfold specColor
    rw [abs_of_pos hw2, div_self (ne_of_gt hw2)]
    simp only [Prod.mk.injEq]
    norm_num
  · unfold specColor
    rw [abs_neg, abs_of_pos hw2, div_self (ne_of_gt hw2)]
    simp only [Prod.mk.injEq]
    norm_num

/-- Witness for C9 at concrete parameters and a concrete column index. -/
theorem c9_witness :
    (0 < testParams.width ∧ 3 ≤ vSeg testParams.resolution) ∧
    (mobiusMeshColor testParams 3 =
        specColor testParams.width
          (((3 : ℕ) / (vSeg testParams.resolution : ℕ) - 0.5) * testParams.width) ∧
      (0 ≤ (mobiusMeshColor testParams 3).1 ∧ (mobiusMeshColor testParams 3).1 ≤ 1) ∧
      (0 ≤ (mobiusMeshColor testParams 3).2.1 ∧ (mobiusMeshColor testParams 3).2.1 ≤ 1) ∧
      (0 ≤ (mobiusMeshColor testParams 3).2.2 ∧ (mobiusMeshColor testParams 3).2.2 ≤ 1) ∧
      specColor testParams.width 0 = (0.2, 0.8, 0.6) ∧
      specColor testParams.width (testParams.width / 2) = (0.5, 0.6, 0.8) ∧
      specColor testParams.width (-(testParams.width / 2)) = (0.5, 0.6, 0.8)) :=
  ⟨⟨by norm_num [testParams], by decide⟩,
   c9_mesh_colors testParams 3 (by norm_num [testParams]) (by decide)⟩

/-- `magnitude` is a square root, hence non-negative. -/
theorem magnitude_nonneg (p : Point3D) : 0 ≤ magnitude p := Real.sqrt_nonneg _

/-- `distance` is a square root, hence non-negative. -/
theorem distance_nonneg (a b : Point3D) : 0 ≤ distance a b := Real.sqrt_nonneg _

/-- Two points with different z-coordinates are at positive distance. -/
theorem distance_pos_of_z_ne (a b : Point3D) (h : a.z ≠ b.z) : 0 < distance a b := by
  unfold distance
  apply Real.sqrt_pos.mpr
  have h1 : 0 < (b.z - a.z) * (b.z - a.z) :=
    mul_self_pos.mpr (sub_ne_zero.mpr (Ne.symm h))
  nlinarith [mul_self_nonneg (b.x - a.x), mul_self_nonneg (b.y - a.y)]

/-- At `u = 0` and `v ≠ 0` the integrand of the surface-area sum — the
magnitude of the cross product of the partials — is positive. -/
theorem area_element_pos_at_zero (v R : ℝ) (hv : v ≠ 0) :
    0 < magnitude (crossProduct (calculatePartialDerivatives 0 v R).1
      (calculatePartialDerivatives 0 v R).2) := by
  unfold calculatePartialDerivatives crossProduct magnitude
  dsimp only
  apply Real.sqrt_pos.mpr
  simp only [zero_div, Real.cos_zero, Real.sin_zero]
  nlinarith [mul_self_pos.mpr hv, sq_nonneg (R + v), sq_nonneg v]

/-- C8: for all valid parameters the numerically-estimated surface area and
edge length are strictly positive. -/
theorem c8_positive_properties (params : MobiusStripParams)
    (hr1 : 0.5 ≤ params.radius) (hr2 : params.radius ≤ 5)
    (hw1 : 0.1 ≤ params.width) (hw2 : params.width ≤ 2)
    (hres1 : 10 ≤ params.resolution) (hres2 : params.resolution ≤ 200) :
    0 < calculateSurfaceArea params ∧ 0 < calculateEdgeLength params := by
  have hresR : (0 : ℝ) < (params.resolution : ℝ) := by
    have : 0 < params.resolution := by omega
    exact_mod_cast this
  have hvSR : (0 : ℝ) < ((vSeg params.resolution : ℕ) : ℝ) := by
    have : 0 < vSeg params.resolution := by unfold vSeg; omega
    exact_mod_cast this
  have hpi := Real.pi_pos
  have huStep : (0 : ℝ) < 2 * Real.pi / (params.resolution : ℝ) := by positivity
  have hvStep : (0 : ℝ) < params.width / ((vSeg params.resolution : ℕ) : ℝ) :=
    div_pos (by linarith) hvSR
  constructor
  · unfold calculateSurfaceArea
    apply Finset.sum_pos'
    · intro i _
      apply Finset.sum_nonneg
      intro j _
      exact mul_nonneg (mul_nonneg (magnitude_nonneg _) huStep.le) hvStep.le
    · refine ⟨0, Finset.mem_range.mpr (by omega), ?_⟩
      apply Finset.sum_pos'
      · intro j _
        exact mul_nonneg (mul_nonneg (magnitude_nonneg _) huStep.le) hvStep.le
      · refine ⟨0, Finset.mem_range.mpr (by unfold vSeg; omega), ?_⟩
        simp only [Nat.cast_zero, zero_mul, zero_div]
        refine mul_pos (mul_pos ?_ huStep) hvStep
        apply area_element_pos_at_zero
        have : (0 - 0.5 : ℝ) * params.width < 0 := by nlinarith
        exact ne_of_lt this
  · unfold calculateEdgeLength
    apply Finset.sum_pos'
    · intro i _
      exact distance_nonneg _ _
    · refine ⟨0, Finset.mem_range.mpr (by omega), ?_⟩
      apply distance_pos_of_z_ne
      simp only [calculateMobiusPoint, Nat.cast_zero, zero_mul, zero_add, one_mul]
      rw [zero_div, Real.sin_zero, mul_zero]
      have harg : (2 * Real.pi / (params.resolution : ℝ)) / 2 =
          Real.pi / (params.resolution : ℝ) := by ring
      rw [harg]
      have hsin : 0 < Real.sin (Real.pi / (params.resolution : ℝ)) := by
        apply Real.sin_pos_of_pos_of_lt_pi
        · positivity
        · apply div_lt_self hpi
          have : (10 : ℝ) ≤ (params.resolution : ℝ) := by exact_mod_cast hres1
          linarith
      exact ne_of_lt (mul_pos (by linarith) hsin)

/-- Witness for C8 at concrete valid parameters. -/
theorem c8_witness :
    (0.5 ≤ testParams.radius ∧ testParams.radius ≤ 5 ∧
      0.1 ≤ testParams.width ∧ testParams.width ≤ 2 ∧
      10 ≤ testParams.resolution ∧ testParams.resolution ≤ 200) ∧
    (0 < calculateSurfaceArea testParams ∧ 0 < calculateEdgeLength testParams) :=
  ⟨⟨by norm_num [testParams], by norm_num [testParams], by norm_num [testParams],
    by norm_num [testParams], by decide, by decide⟩,
   c8_positive_properties testParams (by norm_num [testParams]) (by norm_num [testParams])
     (by norm_num [testParams]) (by norm_num [testParams]) (by decide) (by decide)⟩

end Mobius
